import Mathlib

/-!
Verification of the cocos2d-x network `Downloader` (network/CCDownloader.cpp).

The embedding models the downloader as trace-producing functions.  The external
transfer engine (`DownloaderImpl`, libcurl) is an oracle described by a script
of write/progress callback invocations plus a result code; the filesystem is an
association list from paths to byte contents; user-visible handler invocations
are recorded as events tagged with the execution context (owning cocos thread,
or a worker thread) on which the handler body runs.  Byte counters (`double`
fields `downloaded`/`totalToDownload` in the source, always holding byte
counts) are modelled as naturals.
-/

namespace CCDownloader

/-- Bytes are modelled as natural numbers. -/
abbrev Byte := Nat

/-- Error codes of `cocos2d::network::ErrorCode` used by CCDownloader.cpp. -/
inductive ErrorCode where
  | INVALID_URL
  | CREATE_FILE
  | NETWORK
  | CURL_EASY_ERROR
  | CURL_MULTI_ERROR
  deriving DecidableEq

/-- Execution contexts: the owning (cocos) thread, or some worker thread. -/
inductive ExecThread where
  | cocos
  | worker (id : Nat)
  deriving DecidableEq

/-- A user-visible handler invocation.  `onError` carries the error code, the
message, the correlation id (`customId`), and the native curl easy/multi codes;
`onProgress` carries total and downloaded byte counts plus url and correlation
id; `onSuccess` carries url, final path and correlation id. -/
inductive Callback where
  | onError (code : ErrorCode) (msg customId : String) (curle curlm : Int)
  | onProgress (total now : Nat) (url customId : String)
  | onSuccess (url path customId : String)
  deriving DecidableEq

/-- One delivered handler invocation together with the thread its body runs on.
Closures passed to `Scheduler::performFunctionInCocosThread` run on
`ExecThread.cocos`; direct calls run on the calling thread. -/
structure Event where
  cb : Callback
  thread : ExecThread
  deriving DecidableEq

/-- Which of the three nullable user handlers are installed
(`_onError`, `_onProgress`, `_onSuccess`). -/
structure Handlers where
  hasError : Bool
  hasProgress : Bool
  hasSuccess : Bool
  deriving DecidableEq

/-- Per-transfer mutable tracker (`Downloader::ProgressData`). -/
structure ProgressData where
  customId : String := ""
  url : String := ""
  name : String := ""
  path : String := ""
  downloaded : Nat := 0
  totalToDownload : Nat := 0
  deriving DecidableEq

/-- One requested transfer (`DownloadUnit`).  The `fp` member of the source
struct is represented separately (as the prepared temp-file path) where needed. -/
structure DownloadUnit where
  srcUrl : String
  customId : String
  storagePath : String
  resumeDownload : Bool
  deriving DecidableEq

/-- Buffer-destination state (`Downloader::StreamData`): destination buffer
contents, declared capacity `total`, and write offset. -/
structure StreamData where
  buffer : List Byte
  total : Nat
  offset : Nat
  deriving DecidableEq

/-- The two fopen modes used by `prepareDownload`: `"ab"` (append) and
`"wb"` (truncating write). -/
inductive FileMode where
  | ab
  | wb
  deriving DecidableEq

/-- The filesystem: a finite map from paths to file contents.  Directory
creation (`isDirectoryExist`/`createDirectory` in `prepareDownload`) has no
observable effect on any claim and is not modelled. -/
structure FS where
  files : List (String × List Byte)
  deriving DecidableEq

def fsFind : List (String × List Byte) → String → Option (List Byte)
  | [], _ => none
  | (q, c) :: rest, p => if q = p then some c else fsFind rest p

def fsRemove : List (String × List Byte) → String → List (String × List Byte)
  | [], _ => []
  | (q, c) :: rest, p => if q = p then fsRemove rest p else (q, c) :: fsRemove rest p

def FS.lookup (fs : FS) (p : String) : Option (List Byte) := fsFind fs.files p

def FS.isFileExist (fs : FS) (p : String) : Bool := (fs.lookup p).isSome

/-- `FileUtils::removeFile`. -/
def FS.removeFile (fs : FS) (p : String) : FS := ⟨fsRemove fs.files p⟩

def FS.setFile (fs : FS) (p : String) (c : List Byte) : FS :=
  ⟨(p, c) :: fsRemove fs.files p⟩

/-- An `fwrite` on a handle opened for `p` appends to the file contents. -/
def FS.appendFile (fs : FS) (p : String) (b : List Byte) : FS :=
  fs.setFile p (((fs.lookup p).getD []) ++ b)

/-- `FileUtils::renameFile(path, oldname, newname)`: moves `path ++ oldname`
to `path ++ newname`; a missing source makes it a failing no-op. -/
def FS.renameFile (fs : FS) (dir oldName newName : String) : FS :=
  match fs.lookup (dir ++ oldName) with
  | some c => (fs.removeFile (dir ++ oldName)).setFile (dir ++ newName) c
  | none => fs

/-- Effect of `fopen` on the file contents: `"wb"` truncates or creates empty,
`"ab"` keeps an existing file and creates an empty one otherwise. -/
def FS.fopen (fs : FS) (p : String) (m : FileMode) : FS :=
  match m with
  | .wb => fs.setFile p []
  | .ab => if fs.isFileExist p then fs else fs.setFile p []

/-- A slash or backslash, as searched by `find_last_of` over the storage path. -/
def isPathSep (c : Char) : Bool := c.toNat == 47 || c.toNat == 92

def findLastSepAux : List Char → Option Nat
  | [] => none
  | c :: rest =>
      match findLastSepAux rest with
      | some i => some (i + 1)
      | none => if isPathSep c then some 0 else none

/-- Index of the last path separator in `s` (`find_last_of("/\x5c")`). -/
def findLastSep (s : String) : Option Nat := findLastSepAux s.data

def strTake (s : String) (n : Nat) : String := ⟨s.data.take n⟩

def strDrop (s : String) (n : Nat) : String := ⟨s.data.drop n⟩

/-- `Downloader::notifyError(code, msg, customId, curle_code, curlm_code)`:
always marshals the `onError` invocation to the owning thread via
`performFunctionInCocosThread`; the marshaled closure checks that `_onError`
is installed before calling it. -/
def notifyError (h : Handlers) (code : ErrorCode) (msg customId : String)
    (curle curlm : Int) : List Event :=
  if h.hasError then [⟨.onError code msg customId curle curlm, .cocos⟩] else []

/-- The fopen mode chosen by `prepareDownload`: append only when resuming is
supported for the batch, requested for the unit, and the temp file exists. -/
def fopenModeFor (supportResuming resumeDownload tempExists : Bool) : FileMode :=
  if supportResuming && resumeDownload && tempExists then .ab else .wb

/-- Result of `Downloader::prepareDownload`: the initialised tracker, the
opened temp-file handle (`none` models the null `FILE*`), the filesystem after
the fopen, the handler invocations it performed, and (instrumentation) the
fopen mode it used, `none` when no fopen was attempted. -/
structure PrepareOut where
  pData : ProgressData
  fp : Option String
  fs : FS
  events : List Event
  mode : Option FileMode
  deriving DecidableEq

/-- `Downloader::prepareDownload(srcUrl, storagePath, customId, resumeDownload,
fp, pData)` running on thread `ct`.  `canOpen` models whether the `fopen` of
the temp file succeeds and `errn` the `errno` it would leave.  Note that both
error paths call `this->_onError(err)` directly on the calling thread (they do
not go through `notifyError`). -/
def prepareDownload (h : Handlers) (ct : ExecThread) (supportResuming : Bool)
    (srcUrl storagePath customId : String) (resumeDownload : Bool)
    (canOpen : Bool) (errn : Int) (fs : FS) : PrepareOut :=
  let pd0 : ProgressData :=
    { customId := customId, url := srcUrl, downloaded := 0, totalToDownload := 0 }
  match findLastSep storagePath with
  | none =>
      { pData := pd0, fp := none, fs := fs, mode := none,
        events :=
          if h.hasError then
            [⟨.onError .INVALID_URL
                ("Invalid url or filename not exist error: " ++ srcUrl) customId 0 0, ct⟩]
          else [] }
  | some found =>
      let pd := { pd0 with
        name := strDrop storagePath (found + 1),
        path := strTake storagePath (found + 1) }
      let outFileName := storagePath ++ ".temp"
      let m := fopenModeFor supportResuming resumeDownload (fs.isFileExist outFileName)
      if canOpen then
        { pData := pd, fp := some outFileName, fs := fs.fopen outFileName m,
          events := [], mode := some m }
      else
        { pData := pd, fp := none, fs := fs, mode := some m,
          events :=
            if h.hasError then
              [⟨.onError .CREATE_FILE
                  ("Can not create file " ++ outFileName ++ ": errno " ++ toString errn)
                  customId 0 0, ct⟩]
            else [] }

/-- `Downloader::fileWriteFunc`: `fwrite` of the chunk to the unit's handle,
returning the count written.  A null handle asserts in the source
(`CC_ASSERT(fp)`); it is modelled as writing nothing. -/
def fileWriteFunc (fs : FS) (fp : Option String) (bytes : List Byte) : FS × Nat :=
  match fp with
  | some p => (fs.appendFile p bytes, bytes.length)
  | none => (fs, 0)

/-- Overwrite `bytes` into `buf` starting at `off`
(`memcpy(buffer + offset, ptr, written)`). -/
def writeAt (buf : List Byte) (off : Nat) (bytes : List Byte) : List Byte :=
  buf.take off ++ bytes ++ buf.drop (off + bytes.length)

/-- `Downloader::bufferWriteFunc`: copies the incoming chunk at the current
offset and returns its size, unless that write would run past the declared
capacity, in which case it copies nothing and returns 0. -/
def bufferWriteFunc (sb : StreamData) (bytes : List Byte) : StreamData × Nat :=
  let written := bytes.length
  if sb.offset + written ≤ sb.total then
    ({ sb with buffer := writeAt sb.buffer sb.offset bytes,
               offset := sb.offset + written }, written)
  else (sb, 0)

/-- `Downloader::downloadProgressFunc` (single-transfer path): records the
total on its first invocation, and on every change of the downloaded count
marshals an in-progress notification to the owning thread (the marshaled
closure reads a snapshot of the tracker taken after the update). -/
def downloadProgressFunc (h : Handlers) (pd : ProgressData) (total now : Nat) :
    ProgressData × List Event :=
  let pd1 := if pd.totalToDownload = 0 then { pd with totalToDownload := total } else pd
  if pd1.downloaded ≠ now then
    let pd2 := { pd1 with downloaded := now }
    (pd2, if h.hasProgress then [⟨.onProgress total now pd2.url pd2.customId, .cocos⟩] else [])
  else (pd1, [])

/-- `Downloader::reportDownloadFinished`: invokes `_onSuccess` when installed. -/
def reportDownloadFinished (h : Handlers) (url path customId : String)
    (t : ExecThread) : List Event :=
  if h.hasSuccess then [⟨.onSuccess url path customId, t⟩] else []

/-- `Downloader::reportProgressFinished`: an `onProgress` notification followed
by `reportDownloadFinished` with the file's url and final path. -/
def reportProgressFinished (h : Handlers) (total now : Nat) (pd : ProgressData)
    (t : ExecThread) : List Event :=
  (if h.hasProgress then [⟨.onProgress total now pd.url pd.customId, t⟩] else []) ++
  reportDownloadFinished h pd.url (pd.path ++ pd.name) pd.customId t

/-- `Downloader::reportProgressInProgress`: an `onProgress` notification. -/
def reportProgressInProgress (h : Handlers) (total now : Nat) (pd : ProgressData)
    (t : ExecThread) : List Event :=
  if h.hasProgress then [⟨.onProgress total now pd.url pd.customId, t⟩] else []

/-- `Downloader::batchDownloadProgressFunc` running on thread `ct`: on every
change of the downloaded count it reports either "this file finished" (when
`nowDownloaded == totalToDownload`) or an in-progress notification, marshaled
to the owning thread unless already executing there. -/
def batchDownloadProgressFunc (h : Handlers) (ct : ExecThread)
    (pd : ProgressData) (total now : Nat) : ProgressData × List Event :=
  let pd1 := if pd.totalToDownload = 0 then { pd with totalToDownload := total } else pd
  if pd1.downloaded ≠ now then
    let pd2 := { pd1 with downloaded := now }
    let t := if ct = ExecThread.cocos then ct else ExecThread.cocos
    if now = total then (pd2, reportProgressFinished h total now pd2 t)
    else (pd2, reportProgressInProgress h total now pd2 t)
  else (pd1, [])

/-- One callback invocation the engine performs during a single transfer. -/
inductive EngineAction where
  | write (bytes : List Byte)
  | progress (total now : Nat)
  deriving DecidableEq

/-- Behaviour of `DownloaderImpl::performDownload`: the callback invocations it
makes, its integer result code (0 = success) and `getStrError()`. -/
structure EngineRun where
  actions : List EngineAction
  result : Int
  strError : String
  deriving DecidableEq

/-- The engine running a single file-destination transfer: each `write` goes
through `fileWriteFunc` to the open handle `fp`, each `progress` through
`downloadProgressFunc` on the transfer's tracker. -/
def runEngineSingle (h : Handlers) :
    List EngineAction → FS → Option String → ProgressData →
      FS × ProgressData × List Event
  | [], fs, _, pd => (fs, pd, [])
  | EngineAction.write bytes :: rest, fs, fp, pd =>
      runEngineSingle h rest (fileWriteFunc fs fp bytes).1 fp pd
  | EngineAction.progress t n :: rest, fs, fp, pd =>
      let r := downloadProgressFunc h pd t n
      let r2 := runEngineSingle h rest fs fp r.1
      (r2.1, r2.2.1, r.2 ++ r2.2.2)

/-- The engine running a buffer-destination transfer: writes go through
`bufferWriteFunc`, progress through `downloadProgressFunc`. -/
def runEngineBuffer (h : Handlers) :
    List EngineAction → StreamData → ProgressData →
      StreamData × ProgressData × List Event
  | [], sb, pd => (sb, pd, [])
  | EngineAction.write bytes :: rest, sb, pd =>
      runEngineBuffer h rest (bufferWriteFunc sb bytes).1 pd
  | EngineAction.progress t n :: rest, sb, pd =>
      let r := downloadProgressFunc h pd t n
      let r2 := runEngineBuffer h rest sb r.1
      (r2.1, r2.2.1, r.2 ++ r2.2.2)

/-- Result of a single file-destination transfer (`downloadToFP`): final
filesystem, final tracker, the handler-invocation trace, and instrumentation
recording whether `removeFile` on the temp file and `renameFile` to the final
name were performed. -/
structure RunOut where
  fs : FS
  pData : ProgressData
  events : List Event
  didRemoveTemp : Bool
  didRename : Bool
  deriving DecidableEq

/-- `Downloader::downloadToFP(srcUrl, customId, storagePath)` running on thread
`ct` with member `_supportResuming = sr`.  It prepares the destination (with
`resumeDownload = false`), lets the engine run, and then: on a non-zero result
removes the temp file and reports the engine error through `notifyError`; on a
zero result renames the temp file to its final name and reports success,
marshaled to the owning thread unless already executing there. -/
def downloadToFP (h : Handlers) (ct : ExecThread) (sr : Bool) (canOpen : Bool)
    (errn : Int) (eng : EngineRun) (srcUrl customId storagePath : String)
    (fs0 : FS) : RunOut :=
  let prep := prepareDownload h ct sr srcUrl storagePath customId false canOpen errn fs0
  let r := runEngineSingle h eng.actions prep.fs prep.fp prep.pData
  let fs1 := r.1
  let pd1 := r.2.1
  let engEvs := r.2.2
  if eng.result ≠ 0 then
    let fs2 := fs1.removeFile (pd1.path ++ pd1.name ++ ".temp")
    let errEvs := notifyError h .CURL_EASY_ERROR
        ("Unable to download file: [curl error]" ++ eng.strError) customId eng.result 0
    { fs := fs2, pData := pd1, events := prep.events ++ engEvs ++ errEvs,
      didRemoveTemp := true, didRename := false }
  else
    let fs2 := fs1.renameFile pd1.path (pd1.name ++ ".temp") pd1.name
    let okEvs := reportDownloadFinished h pd1.url (pd1.path ++ pd1.name) pd1.customId
        (if ct = ExecThread.cocos then ct else ExecThread.cocos)
    { fs := fs2, pData := pd1, events := prep.events ++ engEvs ++ okEvs,
      didRemoveTemp := false, didRename := true }

/-- `Downloader::downloadToBuffer(srcUrl, customId, buffer, size)` on thread
`ct`: runs the engine against a fresh `StreamData` over the caller's buffer; on
a non-zero result reports the engine error through `notifyError`, otherwise
reports success (with an empty path), marshaled to the owning thread unless
already executing there. -/
def downloadToBuffer (h : Handlers) (ct : ExecThread) (eng : EngineRun)
    (srcUrl customId : String) (buffer : List Byte) (size : Nat) :
    StreamData × ProgressData × List Event :=
  let pd0 : ProgressData :=
    { customId := customId, url := srcUrl, downloaded := 0, totalToDownload := 0 }
  let sb0 : StreamData := { buffer := buffer, total := size, offset := 0 }
  let r := runEngineBuffer h eng.actions sb0 pd0
  let sb1 := r.1
  let pd1 := r.2.1
  let engEvs := r.2.2
  if eng.result ≠ 0 then
    let errEvs := notifyError h .CURL_EASY_ERROR
        ("Unable to download file to buffer: [curl error]" ++ eng.strError)
        customId eng.result 0
    (sb1, pd1, engEvs ++ errEvs)
  else
    let okEvs := reportDownloadFinished h pd1.url "" pd1.customId
        (if ct = ExecThread.cocos then ct else ExecThread.cocos)
    (sb1, pd1, engEvs ++ okEvs)

/-- `Downloader::downloadToBufferAsync`: with a null buffer pointer
(`buffer = none`) the guard `if (buffer != nullptr)` fails and nothing at all
happens — no worker thread is spawned; otherwise a detached worker thread runs
`downloadToBuffer`. -/
def downloadToBufferAsync (h : Handlers) (eng : EngineRun)
    (srcUrl customId : String) (buffer : Option (List Byte)) (size : Nat) :
    Option (StreamData × ProgressData × List Event) :=
  match buffer with
  | none => none
  | some b => some (downloadToBuffer h (ExecThread.worker 0) eng srcUrl customId b size)

/-- `Downloader::downloadToBufferSync`: same guard, running on the calling
thread. -/
def downloadToBufferSync (h : Handlers) (ct : ExecThread) (eng : EngineRun)
    (srcUrl customId : String) (buffer : Option (List Byte)) (size : Nat) :
    Option (StreamData × ProgressData × List Event) :=
  match buffer with
  | none => none
  | some b => some (downloadToBuffer h ct eng srcUrl customId b size)

/-- `Downloader::downloadSync(srcUrl, storagePath, customId)` runs
`downloadToFP` on the calling thread. -/
def downloadSync (h : Handlers) (ct : ExecThread) (sr : Bool) (canOpen : Bool)
    (errn : Int) (eng : EngineRun) (srcUrl storagePath customId : String)
    (fs0 : FS) : RunOut :=
  downloadToFP h ct sr canOpen errn eng srcUrl customId storagePath fs0

/-- `Downloader::downloadAsync` runs `downloadToFP` on a detached worker. -/
def downloadAsync (h : Handlers) (sr : Bool) (canOpen : Bool)
    (errn : Int) (eng : EngineRun) (srcUrl storagePath customId : String)
    (fs0 : FS) : RunOut :=
  downloadToFP h (ExecThread.worker 0) sr canOpen errn eng srcUrl customId storagePath fs0

/-- One callback invocation `DownloaderImpl::performBatchDownload` makes,
addressing the unit/tracker at index `i` of the group; `multiError` is an
invocation of the bound `notifyError(msg, curlm_code, customId)` overload. -/
inductive BatchAction where
  | write (i : Nat) (bytes : List Byte)
  | progress (i : Nat) (total now : Nat)
  | multiError (msg : String) (curlm : Int) (customId : String)
  deriving DecidableEq

/-- The engine running one batch group: writes go to the prepared handle of the
addressed unit through `fileWriteFunc`, progress through
`batchDownloadProgressFunc` on the addressed tracker, and multi errors through
the `notifyError` overload (code `CURL_MULTI_ERROR`, marshaled). -/
def runEngineBatch (h : Handlers) (ct : ExecThread) (fps : List (Option String)) :
    List BatchAction → FS → List ProgressData →
      FS × List ProgressData × List Event
  | [], fs, pds => (fs, pds, [])
  | BatchAction.write i bytes :: rest, fs, pds =>
      runEngineBatch h ct fps rest (fileWriteFunc fs ((fps.get? i).getD none) bytes).1 pds
  | BatchAction.progress i t n :: rest, fs, pds =>
      match pds.get? i with
      | none => runEngineBatch h ct fps rest fs pds
      | some pd =>
          let r := batchDownloadProgressFunc h ct pd t n
          let r2 := runEngineBatch h ct fps rest fs (pds.set i r.1)
          (r2.1, r2.2.1, r.2 ++ r2.2.2)
  | BatchAction.multiError msg code cid :: rest, fs, pds =>
      let evs := notifyError h .CURL_MULTI_ERROR msg cid 0 code
      let r2 := runEngineBatch h ct fps rest fs pds
      (r2.1, r2.2.1, evs ++ r2.2.2)

/-- The preparation loop of `groupBatchDownload`: one `prepareDownload` per
unit, collecting the opened handles (the `unit.fp` members), the trackers
(`_progDatas`) and the handler invocations the preparations performed. -/
def prepareAll (h : Handlers) (ct : ExecThread) (sr : Bool)
    (canOpen : String → Bool) (errn : Int) :
    List DownloadUnit → FS →
      FS × List (Option String) × List ProgressData × List Event
  | [], fs => (fs, [], [], [])
  | u :: rest, fs =>
      let p := prepareDownload h ct sr u.srcUrl u.storagePath u.customId
          u.resumeDownload (canOpen (u.storagePath ++ ".temp")) errn fs
      let r := prepareAll h ct sr canOpen errn rest p.fs
      (r.1, p.fp :: r.2.1, p.pData :: r.2.2.1, p.events ++ r.2.2.2)

/-- The per-tracker failure test of the completion walk:
`data.downloaded < data.totalToDownload || data.totalToDownload == 0`. -/
def failGuard (d : ProgressData) : Bool :=
  decide (d.downloaded < d.totalToDownload ∨ d.totalToDownload = 0)

/-- The completion walk of `groupBatchDownload`: for every tracker, either a
NETWORK error through `notifyError` with that tracker's correlation id, or a
rename of its temp file to the final name.  Returns the filesystem, the
handler invocations, and (instrumentation) the correlation ids whose temp
files were renamed. -/
def groupPostProcess (h : Handlers) (fs : FS) :
    List ProgressData → FS × List Event × List String
  | [] => (fs, [], [])
  | d :: rest =>
      if failGuard d then
        let evs := notifyError h .NETWORK "Unable to download file" d.customId 0 0
        let r := groupPostProcess h fs rest
        (r.1, evs ++ r.2.1, r.2.2)
      else
        let fs1 := fs.renameFile d.path (d.name ++ ".temp") d.name
        let r := groupPostProcess h fs1 rest
        (r.1, r.2.1, d.customId :: r.2.2)

/-- The renames the completion walk performs, as a fold (used to state what
`groupPostProcess` does to the filesystem). -/
def applyRenames (fs : FS) (pds : List ProgressData) : FS :=
  pds.foldl
    (fun acc d =>
      if failGuard d then acc else acc.renameFile d.path (d.name ++ ".temp") d.name)
    fs

/-- Result of `Downloader::groupBatchDownload` on one group: final filesystem,
the handler-invocation trace, the file handles still open once the group is
done, and the correlation ids whose temp files were renamed. -/
structure GroupOut where
  fs : FS
  events : List Event
  openAfter : List String
  renamedIds : List String
  deriving DecidableEq

/-- `Downloader::groupBatchDownload(units)` on thread `ct`: prepares every
destination, lets the engine multiplex the group, walks every tracker
(NETWORK error or rename), then closes every open handle of the group
(`fclose` leaves file contents untouched). -/
def groupBatchDownload (h : Handlers) (ct : ExecThread) (sr : Bool)
    (canOpen : String → Bool) (errn : Int) (eng : List BatchAction)
    (units : List DownloadUnit) (fs0 : FS) : GroupOut :=
  let prep := prepareAll h ct sr canOpen errn units fs0
  let fps := prep.2.1
  let r := runEngineBatch h ct fps eng prep.1 prep.2.2.1
  let post := groupPostProcess h r.1 r.2.1
  let opens := fps.filterMap id
  let openAfter := fps.foldl
      (fun os fp => match fp with | some p => os.erase p | none => os) opens
  { fs := post.1, events := prep.2.2.2 ++ r.2.2 ++ post.2.1,
    openAfter := openAfter, renamedIds := post.2.2 }

/-- The grouping loop of `batchDownloadSync`: `count` counts the units already
in `group`; when it reaches `L` (`FOPEN_MAX`) the group is flushed before the
next unit is added. -/
def grouploop {α : Type} (L : Nat) : List α → Nat → List α → List (List α)
  | [], _, group => if group.isEmpty then [] else [group]
  | u :: rest, count, group =>
      if count = L then group :: grouploop L rest 1 [u]
      else grouploop L rest (count + 1) (group ++ [u])

/-- The engine batch calls `batchDownloadSync` issues, one list per call: an
empty batch issues none; a batch of at least `L` units is split by the
grouping loop; a smaller batch goes out as a single group. -/
def batchGroups {α : Type} (L : Nat) (units : List α) : List (List α) :=
  if units.length = 0 then []
  else if L ≤ units.length then grouploop L units 0 []
  else [units]

/-- Sequential processing of the groups: group `k+1` starts from the
filesystem group `k` left behind, and its events follow group `k`'s.
`engineFor k` is the engine behaviour on the `k`-th batch call. -/
def runGroups (h : Handlers) (ct : ExecThread) (sr : Bool)
    (canOpen : String → Bool) (errn : Int) (engineFor : Nat → List BatchAction) :
    Nat → List (List DownloadUnit) → FS → FS × List Event
  | _, [], fs => (fs, [])
  | k, g :: rest, fs =>
      let out := groupBatchDownload h ct sr canOpen errn (engineFor k) g fs
      let r := runGroups h ct sr canOpen errn engineFor (k + 1) rest out.fs
      (r.1, out.events ++ r.2)

/-- `Downloader::batchDownloadSync(units, batchId)` on thread `ct`:
`engineResume` is what `supportsResume()` would report (probed, and used as
`_supportResuming`, only for a non-empty batch); after the groups are
processed it always marshals one final success callback with empty url and
path and the batch id onto the owning thread. -/
def batchDownloadSync (h : Handlers) (ct : ExecThread) (engineResume : Bool)
    (canOpen : String → Bool) (errn : Int) (engineFor : Nat → List BatchAction)
    (L : Nat) (units : List DownloadUnit) (batchId : String) (fs0 : FS) :
    FS × List Event :=
  let gr := if units.length = 0 then (fs0, ([] : List Event))
    else runGroups h ct engineResume canOpen errn engineFor 0 (batchGroups L units) fs0
  let finalEvs :=
    if h.hasSuccess then [(⟨.onSuccess "" "" batchId, .cocos⟩ : Event)] else []
  (gr.1, gr.2 ++ finalEvs)

/-- Predicate selectors on callbacks, used to state the claims. -/
def Callback.isProgressCb : Callback → Bool
  | .onProgress .. => true
  | _ => false

def Callback.isSuccessCb : Callback → Bool
  | .onSuccess .. => true
  | _ => false

def Callback.isErrorCb : Callback → Bool
  | .onError .. => true
  | _ => false

/-- An error raised directly by `prepareDownload` (invalid path or temp-file
open failure). -/
def Callback.isPrepErrorCb : Callback → Bool
  | .onError code _ _ _ _ =>
      match code with
      | .INVALID_URL => true
      | .CREATE_FILE => true
      | _ => false
  | _ => false

/-- An `onError` carrying a given engine message and native result code
(code `CURL_EASY_ERROR`). -/
def Callback.isEngineErrorCb (msg : String) (res : Int) : Callback → Bool
  | .onError code m _ c _ =>
      match code with
      | .CURL_EASY_ERROR => decide (m = msg ∧ c = res)
      | _ => false
  | _ => false

/-- A per-file success callback: `onSuccess` with a non-empty url. -/
def Callback.isFileSuccessCb : Callback → Bool
  | .onSuccess url _ _ => !(url = "")
  | _ => false

/-- Concrete values used by the counterexamples and witnesses. -/
def allHandlers : Handlers := ⟨true, true, true⟩

def emptyFS : FS := ⟨[]⟩

def idleEngine : EngineRun := { actions := [], result := 0, strError := "" }

def failedEngine : EngineRun := { actions := [], result := 6, strError := "host not found" }

def partialEngine : EngineRun :=
  { actions := [EngineAction.write [1, 2, 3], EngineAction.progress 100 50],
    result := 0, strError := "" }

def unitA : DownloadUnit :=
  { srcUrl := "http://x/a.bin", customId := "A",
    storagePath := "/tmp/a.bin", resumeDownload := false }

def pdFail : ProgressData :=
  { customId := "F", url := "u1", name := "f", path := "/d/",
    downloaded := 1, totalToDownload := 2 }

def pdOk : ProgressData :=
  { customId := "K", url := "u2", name := "k", path := "/d/",
    downloaded := 3, totalToDownload := 3 }

def fsK : FS := ⟨[("/d/k.temp", [7])]⟩

theorem fsFind_fsRemove_self (l : List (String × List Byte)) (p : String) :
    fsFind (fsRemove l p) p = none := by
  induction l with
  | nil => rfl
  | cons e rest ih =>
      obtain ⟨q, c⟩ := e
      by_cases hq : q = p
      · simp [fsRemove, hq, ih]
      · simp [fsRemove, fsFind, hq, ih]

theorem fsFind_fsRemove_ne (l : List (String × List Byte)) (p q : String)
    (hpq : p ≠ q) : fsFind (fsRemove l q) p = fsFind l p := by
  induction l with
  | nil => rfl
  | cons e rest ih =>
      obtain ⟨r, c⟩ := e
      by_cases hr : r = q
      · subst hr
        have hrp : r ≠ p := fun h => hpq h.symm
        simp [fsRemove, fsFind, hrp, ih]
      · by_cases hp : r = p
        · subst hp
          simp [fsRemove, fsFind, hr]
        · simp [fsRemove, fsFind, hr, hp, ih]

theorem FS.lookup_setFile_self (fs : FS) (q : String) (c : List Byte) :
    (fs.setFile q c).lookup q = some c := by
  simp [FS.setFile, FS.lookup, fsFind]

theorem FS.lookup_setFile_ne (fs : FS) (p q : String) (c : List Byte)
    (hpq : p ≠ q) : (fs.setFile q c).lookup p = fs.lookup p := by
  have hqp : q ≠ p := fun h => hpq h.symm
  simp [FS.setFile, FS.lookup, fsFind, hqp, fsFind_fsRemove_ne fs.files p q hpq]

theorem FS.lookup_removeFile_self (fs : FS) (p : String) :
    (fs.removeFile p).lookup p = none := by
  simp [FS.removeFile, FS.lookup, fsFind_fsRemove_self]

theorem FS.lookup_appendFile_ne (fs : FS) (p q : String) (b : List Byte)
    (hpq : p ≠ q) : (fs.appendFile q b).lookup p = fs.lookup p := by
  simp [FS.appendFile, FS.lookup_setFile_ne fs p q _ hpq]

theorem FS.lookup_appendFile_self (fs : FS) (p : String) (b : List Byte) :
    (fs.appendFile p b).lookup p = some (((fs.lookup p).getD []) ++ b) := by
  simp [FS.appendFile, FS.lookup_setFile_self]

theorem FS.lookup_fopen_wb (fs : FS) (p : String) :
    (fs.fopen p .wb).lookup p = some [] := by
  simp [FS.fopen, FS.lookup_setFile_self]

theorem FS.fopen_ab_of_exists (fs : FS) (p : String)
    (hx : fs.isFileExist p = true) : fs.fopen p .ab = fs := by
  simp [FS.fopen, hx]

theorem FS.fopen_isFileExist (fs : FS) (p : String) (m : FileMode) :
    (fs.fopen p m).isFileExist p = true := by
  cases m with
  | wb => simp [FS.isFileExist, FS.lookup_fopen_wb]
  | ab =>
      by_cases hx : fs.isFileExist p = true
      · rw [FS.fopen_ab_of_exists fs p hx]
        exact hx
      · have hx' : (fs.lookup p).isSome ≠ true := by
          simpa [FS.isFileExist] using hx
        simp [FS.fopen, FS.isFileExist, hx', FS.lookup_setFile_self]

theorem strTake_append_strDrop (s : String) (n : Nat) :
    strTake s n ++ strDrop s n = s := by
  cases s with
  | mk l => exact congrArg String.mk (List.take_append_drop n l)

theorem takeLenAppend {α : Type} (l₁ l₂ : List α) :
    (l₁ ++ l₂).take l₁.length = l₁ := by
  induction l₁ with
  | nil => rfl
  | cons a t ih => simp [ih]

theorem dropLenAppend {α : Type} (l₁ l₂ : List α) :
    (l₁ ++ l₂).drop l₁.length = l₂ := by
  induction l₁ with
  | nil => rfl
  | cons a t ih => simp [ih]

theorem marshalThread (ct : ExecThread) :
    (if ct = ExecThread.cocos then ct else ExecThread.cocos) = ExecThread.cocos := by
  by_cases hc : ct = ExecThread.cocos <;> simp [hc]

theorem notifyError_events (h : Handlers) (code : ErrorCode) (msg cid : String)
    (a b : Int) : ∀ e ∈ notifyError h code msg cid a b,
      e.thread = ExecThread.cocos ∧ e.cb.isErrorCb = true := by
  intro e he
  by_cases hh : h.hasError = true
  · simp [notifyError, hh] at he
    subst he
    exact ⟨rfl, rfl⟩
  · simp [notifyError, hh] at he

theorem downloadProgressFunc_events (h : Handlers) (pd : ProgressData)
    (t n : Nat) : ∀ e ∈ (downloadProgressFunc h pd t n).2,
      e.thread = ExecThread.cocos ∧ e.cb.isProgressCb = true := by
  intro e he
  unfold downloadProgressFunc at he
  by_cases h0 : pd.totalToDownload = 0 <;>
    by_cases hd : pd.downloaded = n <;>
      by_cases hp : h.hasProgress = true <;>
        simp [h0, hd, hp] at he
  all_goals (subst he; exact ⟨rfl, rfl⟩)

theorem downloadProgressFunc_meta (h : Handlers) (pd : ProgressData)
    (t n : Nat) :
    (downloadProgressFunc h pd t n).1.customId = pd.customId ∧
    (downloadProgressFunc h pd t n).1.url = pd.url ∧
    (downloadProgressFunc h pd t n).1.name = pd.name ∧
    (downloadProgressFunc h pd t n).1.path = pd.path := by
  unfold downloadProgressFunc
  by_cases h0 : pd.totalToDownload = 0 <;>
    by_cases hd : pd.downloaded = n <;>
      simp [h0, hd]

theorem runEngineSingle_events (h : Handlers) :
    ∀ (acts : List EngineAction) (fs : FS) (fp : Option String)
      (pd : ProgressData), ∀ e ∈ (runEngineSingle h acts fs fp pd).2.2,
        e.thread = ExecThread.cocos ∧ e.cb.isProgressCb = true := by
  intro acts
  induction acts with
  | nil => intro fs fp pd e he; simp [runEngineSingle] at he
  | cons a rest ih =>
      intro fs fp pd e he
      cases a with
      | write bytes => exact ih _ _ _ e he
      | progress t n =>
          simp only [runEngineSingle, List.mem_append] at he
          rcases he with he | he
          · exact downloadProgressFunc_events h pd t n e he
          · exact ih _ _ _ e he

theorem runEngineSingle_meta (h : Handlers) :
    ∀ (acts : List EngineAction) (fs : FS) (fp : Option String)
      (pd : ProgressData),
      (runEngineSingle h acts fs fp pd).2.1.customId = pd.customId ∧
      (runEngineSingle h acts fs fp pd).2.1.url = pd.url ∧
      (runEngineSingle h acts fs fp pd).2.1.name = pd.name ∧
      (runEngineSingle h acts fs fp pd).2.1.path = pd.path := by
  intro acts
  induction acts with
  | nil => intro fs fp pd; simp [runEngineSingle]
  | cons a rest ih =>
      intro fs fp pd
      cases a with
      | write bytes => exact ih _ _ _
      | progress t n =>
          have hm := downloadProgressFunc_meta h pd t n
          have hr := ih fs fp (downloadProgressFunc h pd t n).1
          simp only [runEngineSingle]
          exact ⟨hr.1.trans hm.1, hr.2.1.trans hm.2.1,
            hr.2.2.1.trans hm.2.2.1, hr.2.2.2.trans hm.2.2.2⟩

theorem runEngineSingle_fs_ne (h : Handlers) :
    ∀ (acts : List EngineAction) (fs : FS) (q : String) (pd : ProgressData)
      (p : String), p ≠ q →
      (runEngineSingle h acts fs (some q) pd).1.lookup p = fs.lookup p := by
  intro acts
  induction acts with
  | nil => intro fs q pd p _; simp [runEngineSingle]
  | cons a rest ih =>
      intro fs q pd p hpq
      cases a with
      | write bytes =>
          simp only [runEngineSingle, fileWriteFunc]
          rw [ih _ _ _ _ hpq, FS.lookup_appendFile_ne fs p q bytes hpq]
      | progress t n =>
          simp only [runEngineSingle]
          exact ih _ _ _ _ hpq

theorem prepareDownload_events (h : Handlers) (ct : ExecThread) (sr : Bool)
    (url sp cid : String) (rd canOpen : Bool) (errn : Int) (fs : FS) :
    ∀ e ∈ (prepareDownload h ct sr url sp cid rd canOpen errn fs).events,
      e.thread = ct ∧ e.cb.isPrepErrorCb = true := by
  intro e he
  unfold prepareDownload at he
  cases hk : findLastSep sp with
  | none =>
      rw [hk] at he
      by_cases hh : h.hasError = true
      · simp [hh] at he
        subst he
        exact ⟨rfl, rfl⟩
      · simp [hh] at he
  | some found =>
      rw [hk] at he
      by_cases hc : canOpen = true
      · simp [hc] at he
      · by_cases hh : h.hasError = true
        · simp [hc, hh] at he
          subst he
          exact ⟨rfl, rfl⟩
        · simp [hc, hh] at he

theorem prepareDownload_some (h : Handlers) (ct : ExecThread) (sr : Bool)
    (url sp cid : String) (rd : Bool) (errn : Int) (fs : FS) (k : Nat)
    (hk : findLastSep sp = some k) :
    prepareDownload h ct sr url sp cid rd true errn fs =
      { pData := { customId := cid, url := url, name := strDrop sp (k + 1),
                   path := strTake sp (k + 1), downloaded := 0, totalToDownload := 0 },
        fp := some (sp ++ ".temp"),
        fs := fs.fopen (sp ++ ".temp")
            (fopenModeFor sr rd (fs.isFileExist (sp ++ ".temp"))),
        events := [],
        mode := some (fopenModeFor sr rd (fs.isFileExist (sp ++ ".temp"))) } := by
  simp [prepareDownload, hk]

theorem reportProgressFinished_events (h : Handlers) (t n : Nat)
    (pd : ProgressData) (thr : ExecThread) :
    ∀ e ∈ reportProgressFinished h t n pd thr, e.thread = thr := by
  intro e he
  unfold reportProgressFinished reportDownloadFinished at he
  by_cases hp : h.hasProgress = true <;>
    by_cases hs : h.hasSuccess = true <;>
      simp [hp, hs] at he
  all_goals first
    | (subst he; rfl)
    | (rcases he with he | he <;> (subst he; rfl))

theorem reportProgressInProgress_events (h : Handlers) (t n : Nat)
    (pd : ProgressData) (thr : ExecThread) :
    ∀ e ∈ reportProgressInProgress h t n pd thr, e.thread = thr := by
  intro e he
  unfold reportProgressInProgress at he
  by_cases hp : h.hasProgress = true <;> simp [hp] at he
  subst he
  rfl

theorem batchDownloadProgressFunc_events (h : Handlers) (ct : ExecThread)
    (pd : ProgressData) (t n : Nat) :
    ∀ e ∈ (batchDownloadProgressFunc h ct pd t n).2,
      e.thread = ExecThread.cocos := by
  intro e he
  unfold batchDownloadProgressFunc at he
  rw [marshalThread ct] at he
  by_cases hd :
      (if pd.totalToDownload = 0 then { pd with totalToDownload := t } else pd).downloaded ≠ n
  · rw [if_pos hd] at he
    by_cases hnt : n = t
    · rw [if_pos hnt] at he
      exact reportProgressFinished_events h t n _ _ e he
    · rw [if_neg hnt] at he
      exact reportProgressInProgress_events h t n _ _ e he
  · rw [if_neg hd] at he
    simp at he

theorem runEngineBatch_events (h : Handlers) (ct : ExecThread)
    (fps : List (Option String)) :
    ∀ (acts : List BatchAction) (fs : FS) (pds : List ProgressData),
      ∀ e ∈ (runEngineBatch h ct fps acts fs pds).2.2,
        e.thread = ExecThread.cocos := by
  intro acts
  induction acts with
  | nil => intro fs pds e he; simp [runEngineBatch] at he
  | cons a rest ih =>
      intro fs pds e he
      cases a with
      | write i bytes => exact ih _ _ e he
      | progress i t n =>
          simp only [runEngineBatch] at he
          cases hg : pds.get? i with
          | none =>
              rw [hg] at he
              exact ih _ _ e he
          | some pd =>
              rw [hg] at he
              simp only [List.mem_append] at he
              rcases he with he | he
              · exact batchDownloadProgressFunc_events h ct pd t n e he
              · exact ih _ _ e he
      | multiError msg code cid =>
          simp only [runEngineBatch, List.mem_append] at he
          rcases he with he | he
          · exact (notifyError_events h _ msg cid 0 code e he).1
          · exact ih _ _ e he

theorem prepareAll_events (h : Handlers) (ct : ExecThread) (sr : Bool)
    (canOpen : String → Bool) (errn : Int) :
    ∀ (units : List DownloadUnit) (fs : FS),
      ∀ e ∈ (prepareAll h ct sr canOpen errn units fs).2.2.2,
        e.thread = ct ∧ e.cb.isPrepErrorCb = true := by
  intro units
  induction units with
  | nil => intro fs e he; simp [prepareAll] at he
  | cons u rest ih =>
      intro fs e he
      simp only [prepareAll, List.mem_append] at he
      rcases he with he | he
      · exact prepareDownload_events h ct sr u.srcUrl u.storagePath u.customId
          u.resumeDownload _ errn fs e he
      · exact ih _ e he

theorem groupPostProcess_events (h : Handlers) :
    ∀ (pds : List ProgressData) (fs : FS),
      ∀ e ∈ (groupPostProcess h fs pds).2.1,
        e.thread = ExecThread.cocos ∧ e.cb.isErrorCb = true := by
  intro pds
  induction pds with
  | nil => intro fs e he; simp [groupPostProcess] at he
  | cons d rest ih =>
      intro fs e he
      by_cases hf : failGuard d = true
      · simp only [groupPostProcess, hf, if_true, List.mem_append] at he
        rcases he with he | he
        · exact notifyError_events h _ _ d.customId 0 0 e he
        · exact ih _ e he
      · simp only [groupPostProcess, hf, if_false, Bool.false_eq_true] at he
        exact ih _ e he

theorem closeOpens :
    ∀ (fps : List (Option String)),
      fps.foldl (fun os fp => match fp with | some p => os.erase p | none => os)
        (fps.filterMap id) = [] := by
  intro fps
  induction fps with
  | nil => rfl
  | cons f rest ih =>
      cases f with
      | none => simpa using ih
      | some p =>
          simp only [List.filterMap_cons, id, List.foldl_cons,
            List.erase_cons_head]
          exact ih

theorem groupPostProcess_spec (h : Handlers) (hE : h.hasError = true) :
    ∀ (pds : List ProgressData) (fs : FS),
      groupPostProcess h fs pds =
        (applyRenames fs pds,
         (pds.filter failGuard).map
           (fun d => (⟨.onError .NETWORK "Unable to download file" d.customId 0 0,
                       .cocos⟩ : Event)),
         (pds.filter (fun d => !failGuard d)).map (fun d => d.customId)) := by
  intro pds
  induction pds with
  | nil => intro fs; simp [groupPostProcess, applyRenames]
  | cons d rest ih =>
      intro fs
      by_cases hf : failGuard d = true
      · simp [groupPostProcess, hf, notifyError, hE, ih, applyRenames]
      · simp [groupPostProcess, hf, ih, applyRenames]

theorem groupPostProcess_renamed (h : Handlers) :
    ∀ (pds : List ProgressData) (fs : FS),
      (groupPostProcess h fs pds).2.2 =
        (pds.filter (fun d => !failGuard d)).map (fun d => d.customId) := by
  intro pds
  induction pds with
  | nil => intro fs; simp [groupPostProcess]
  | cons d rest ih =>
      intro fs
      by_cases hf : failGuard d = true <;> simp [groupPostProcess, hf, ih]

theorem grouploop_flatten {α : Type} (L : Nat) :
    ∀ (us : List α) (count : Nat) (group : List α),
      (grouploop L us count group).flatten = group ++ us := by
  intro us
  induction us with
  | nil =>
      intro count group
      cases group with
      | nil => simp [grouploop]
      | cons a t => simp [grouploop]
  | cons u rest ih =>
      intro count group
      by_cases hc : count = L
      · simp [grouploop, hc, ih]
      · simp [grouploop, hc, ih]

theorem grouploop_length {α : Type} (L : Nat) (hL : 0 < L) :
    ∀ (us : List α) (count : Nat) (group : List α),
      count = group.length → count ≤ L →
      (grouploop L us count group).length = (group.length + us.length + L - 1) / L := by
  intro us
  induction us with
  | nil =>
      intro count group hcg hcL
      cases group with
      | nil =>
          rw [grouploop]
          simp only [List.isEmpty_nil, if_true, List.length_nil]
          exact (Nat.div_eq_of_lt (by omega)).symm
      | cons a t =>
          rw [grouploop]
          have hif : (if (a :: t).isEmpty then ([] : List (List α)) else [a :: t])
              = [a :: t] := by simp
          rw [hif]
          have h1 : 1 ≤ (a :: t).length := by simp
          have hle : (a :: t).length ≤ L := hcg ▸ hcL
          have hsing : ([a :: t] : List (List α)).length = 1 := rfl
          have hnil : ([] : List α).length = 0 := rfl
          rw [hsing, hnil]
          exact (Nat.div_eq_of_lt_le (by omega) (by omega)).symm
  | cons u rest ih =>
      intro count group hcg hcL
      by_cases hc : count = L
      · have hgL : group.length = L := by omega
        rw [grouploop, if_pos hc]
        have hrec := ih 1 [u] rfl (by omega)
        have hul : ([u] : List α).length = 1 := rfl
        rw [hul] at hrec
        rw [List.length_cons, hrec]
        have hnum : group.length + (u :: rest).length + L - 1 =
            (1 + rest.length + L - 1) + L := by
          simp only [List.length_cons]
          omega
        rw [hnum, Nat.add_div_right _ hL]
      · rw [grouploop, if_neg hc]
        have hlen : count + 1 = (group ++ [u]).length := by
          simp only [List.length_append]
          have hul : ([u] : List α).length = 1 := rfl
          omega
        have hrec := ih (count + 1) (group ++ [u]) hlen (by omega)
        rw [hrec]
        have happ : (group ++ [u]).length = group.length + 1 := by
          simp only [List.length_append]
          rfl
        rw [happ]
        congr 1
        simp only [List.length_cons]
        omega

theorem grouploop_sizes {α : Type} (L : Nat) (hL : 0 < L) :
    ∀ (us : List α) (count : Nat) (group : List α),
      count = group.length → count ≤ L →
      ∀ g ∈ grouploop L us count group, g.length ≤ L := by
  intro us
  induction us with
  | nil =>
      intro count group hcg hcL g hg
      cases group with
      | nil => simp [grouploop] at hg
      | cons a t =>
          simp [grouploop] at hg
          subst hg
          omega
  | cons u rest ih =>
      intro count group hcg hcL g hg
      by_cases hc : count = L
      · rw [grouploop, if_pos hc] at hg
        rcases List.mem_cons.mp hg with hg | hg
        · subst hg; omega
        · exact ih 1 [u] rfl (by omega) g hg
      · rw [grouploop, if_neg hc] at hg
        have hlen : count + 1 = (group ++ [u]).length := by
          simp only [List.length_append]
          have hul : ([u] : List α).length = 1 := rfl
          omega
        exact ih (count + 1) (group ++ [u]) hlen (by omega) g hg

theorem reportDownloadFinished_events (h : Handlers) (url path cid : String)
    (thr : ExecThread) : ∀ e ∈ reportDownloadFinished h url path cid thr,
      e.thread = thr := by
  intro e he
  unfold reportDownloadFinished at he
  by_cases hs : h.hasSuccess = true <;> simp [hs] at he
  subst he
  rfl

theorem countP_zero_of_all {α : Type} (q : α → Bool) :
    ∀ l : List α, (∀ e ∈ l, q e = false) → l.countP q = 0 := by
  intro l
  induction l with
  | nil => intro _; rfl
  | cons a t ih =>
      intro hall
      rw [List.countP_cons, ih (fun e he => hall e (List.mem_cons_of_mem a he))]
      simp [hall a (List.mem_cons_self a t)]

theorem progressCb_excludes (cb : Callback) (hp : cb.isProgressCb = true) :
    cb.isErrorCb = false ∧ cb.isSuccessCb = false ∧
    (∀ msg res, cb.isEngineErrorCb msg res = false) ∧
    cb.isPrepErrorCb = false := by
  cases cb <;>
    simp_all [Callback.isProgressCb, Callback.isErrorCb, Callback.isSuccessCb,
      Callback.isEngineErrorCb, Callback.isPrepErrorCb]

theorem runEngineBuffer_events (h : Handlers) :
    ∀ (acts : List EngineAction) (sb : StreamData) (pd : ProgressData),
      ∀ e ∈ (runEngineBuffer h acts sb pd).2.2,
        e.thread = ExecThread.cocos ∧ e.cb.isProgressCb = true := by
  intro acts
  induction acts with
  | nil => intro sb pd e he; simp [runEngineBuffer] at he
  | cons a rest ih =>
      intro sb pd e he
      cases a with
      | write bytes => exact ih _ _ e he
      | progress t n =>
          simp only [runEngineBuffer, List.mem_append] at he
          rcases he with he | he
          · exact downloadProgressFunc_events h pd t n e he
          · exact ih _ _ e he

theorem downloadToFP_events_split (h : Handlers) (ct : ExecThread)
    (sr canOpen : Bool) (errn : Int) (eng : EngineRun) (url cid sp : String)
    (fs0 : FS) : ∀ e ∈ (downloadToFP h ct sr canOpen errn eng url cid sp fs0).events,
      e.thread = ExecThread.cocos ∨ (e.thread = ct ∧ e.cb.isPrepErrorCb = true) := by
  intro e he
  unfold downloadToFP at he
  by_cases hres : eng.result = 0
  · rw [if_neg (by simp [hres])] at he
    simp only [List.mem_append] at he
    rcases he with (he | he) | he
    · exact Or.inr (prepareDownload_events h ct sr url sp cid false canOpen errn fs0 e he)
    · exact Or.inl (runEngineSingle_events h _ _ _ _ e he).1
    · refine Or.inl ?_
      rw [← marshalThread ct]
      exact reportDownloadFinished_events h _ _ _ _ e he
  · rw [if_pos hres] at he
    simp only [List.mem_append] at he
    rcases he with (he | he) | he
    · exact Or.inr (prepareDownload_events h ct sr url sp cid false canOpen errn fs0 e he)
    · exact Or.inl (runEngineSingle_events h _ _ _ _ e he).1
    · exact Or.inl (notifyError_events h _ _ cid eng.result 0 e he).1

theorem downloadToBuffer_events (h : Handlers) (ct : ExecThread)
    (eng : EngineRun) (url cid : String) (buf : List Byte) (size : Nat) :
    ∀ e ∈ (downloadToBuffer h ct eng url cid buf size).2.2,
      e.thread = ExecThread.cocos := by
  intro e he
  unfold downloadToBuffer at he
  by_cases hres : eng.result = 0
  · rw [if_neg (by simp [hres])] at he
    simp only [List.mem_append] at he
    rcases he with he | he
    · exact (runEngineBuffer_events h _ _ _ e he).1
    · rw [← marshalThread ct]
      exact reportDownloadFinished_events h _ _ _ _ e he
  · rw [if_pos hres] at he
    simp only [List.mem_append] at he
    rcases he with he | he
    · exact (runEngineBuffer_events h _ _ _ e he).1
    · exact (notifyError_events h _ _ cid eng.result 0 e he).1

theorem groupBatchDownload_events (h : Handlers) (ct : ExecThread) (sr : Bool)
    (canOpen : String → Bool) (errn : Int) (eng : List BatchAction)
    (units : List DownloadUnit) (fs : FS) :
    ∀ e ∈ (groupBatchDownload h ct sr canOpen errn eng units fs).events,
      e.thread = ExecThread.cocos ∨ (e.thread = ct ∧ e.cb.isPrepErrorCb = true) := by
  intro e he
  unfold groupBatchDownload at he
  simp only [List.mem_append] at he
  rcases he with (he | he) | he
  · exact Or.inr (prepareAll_events h ct sr canOpen errn units fs e he)
  · exact Or.inl (runEngineBatch_events h ct _ _ _ _ e he)
  · exact Or.inl (groupPostProcess_events h _ _ e he).1

theorem runGroups_events (h : Handlers) (ct : ExecThread) (sr : Bool)
    (canOpen : String → Bool) (errn : Int) (engineFor : Nat → List BatchAction) :
    ∀ (groups : List (List DownloadUnit)) (k : Nat) (fs : FS),
      ∀ e ∈ (runGroups h ct sr canOpen errn engineFor k groups fs).2,
        e.thread = ExecThread.cocos ∨ (e.thread = ct ∧ e.cb.isPrepErrorCb = true) := by
  intro groups
  induction groups with
  | nil => intro k fs e he; simp [runGroups] at he
  | cons g rest ih =>
      intro k fs e he
      simp only [runGroups, List.mem_append] at he
      rcases he with he | he
      · exact groupBatchDownload_events h ct sr canOpen errn (engineFor k) g fs e he
      · exact ih _ _ e he

theorem batchDownloadSync_events (h : Handlers) (ct : ExecThread)
    (engineResume : Bool) (canOpen : String → Bool) (errn : Int)
    (engineFor : Nat → List BatchAction) (L : Nat)
    (units : List DownloadUnit) (batchId : String) (fs0 : FS) :
    ∀ e ∈ (batchDownloadSync h ct engineResume canOpen errn engineFor L units batchId fs0).2,
      e.thread = ExecThread.cocos ∨ (e.thread = ct ∧ e.cb.isPrepErrorCb = true) := by
  intro e he
  unfold batchDownloadSync at he
  by_cases h0 : units.length = 0
  · rw [if_pos h0] at he
    by_cases hs : h.hasSuccess = true <;> simp [hs] at he
    subst he
    exact Or.inl rfl
  · rw [if_neg h0] at he
    simp only [List.mem_append] at he
    rcases he with he | he
    · exact runGroups_events h ct engineResume canOpen errn engineFor _ 0 fs0 e he
    · by_cases hs : h.hasSuccess = true <;> simp [hs] at he
      subst he
      exact Or.inl rfl

/-- C5: for every buffer-destination write callback invocation, if the
tracker's current offset plus the incoming byte count would exceed the
buffer's declared capacity, the callback copies nothing and returns 0;
otherwise it copies exactly the incoming bytes at the current offset,
advances the offset by that count, and returns the count — so the buffer is
never written past its declared capacity (its length never changes). -/
theorem C5_buffer_write_guard (sb : StreamData) (bytes : List Byte) :
    (sb.total < sb.offset + bytes.length → bufferWriteFunc sb bytes = (sb, 0)) ∧
    (sb.offset + bytes.length ≤ sb.total →
      (bufferWriteFunc sb bytes).2 = bytes.length ∧
      (bufferWriteFunc sb bytes).1.offset = sb.offset + bytes.length ∧
      (bufferWriteFunc sb bytes).1.total = sb.total ∧
      (sb.buffer.length = sb.total →
        (bufferWriteFunc sb bytes).1.buffer.length = sb.buffer.length ∧
        (bufferWriteFunc sb bytes).1.buffer.take sb.offset = sb.buffer.take sb.offset ∧
        ((bufferWriteFunc sb bytes).1.buffer.drop sb.offset).take bytes.length = bytes ∧
        (bufferWriteFunc sb bytes).1.buffer.drop (sb.offset + bytes.length) =
          sb.buffer.drop (sb.offset + bytes.length))) := by
  constructor
  · intro hover
    have hn : ¬ (sb.offset + bytes.length ≤ sb.total) := by omega
    simp [bufferWriteFunc, hn]
  · intro hle
    have hif : bufferWriteFunc sb bytes =
        ({ sb with buffer := writeAt sb.buffer sb.offset bytes,
                   offset := sb.offset + bytes.length }, bytes.length) := by
      simp [bufferWriteFunc, hle]
    rw [hif]
    refine ⟨rfl, rfl, rfl, ?_⟩
    intro hlen
    have hoff : sb.offset ≤ sb.buffer.length := by omega
    have htk : (sb.buffer.take sb.offset).length = sb.offset := by
      simp [List.length_take]
      omega
    have hsplit : writeAt sb.buffer sb.offset bytes =
        sb.buffer.take sb.offset ++
          (bytes ++ sb.buffer.drop (sb.offset + bytes.length)) := by
      simp [writeAt, List.append_assoc]
    refine ⟨?_, ?_, ?_, ?_⟩
    · rw [hsplit]
      simp only [List.length_append, List.length_take, List.length_drop]
      omega
    · have key := takeLenAppend (sb.buffer.take sb.offset)
        (bytes ++ sb.buffer.drop (sb.offset + bytes.length))
      rw [htk] at key
      simp only [hsplit]
      exact key
    · have key := dropLenAppend (sb.buffer.take sb.offset)
        (bytes ++ sb.buffer.drop (sb.offset + bytes.length))
      rw [htk] at key
      simp only [hsplit, key]
      exact takeLenAppend bytes _
    · have hlen2 : (sb.buffer.take sb.offset ++ bytes).length =
          sb.offset + bytes.length := by
        simp only [List.length_append]
        omega
      have key := dropLenAppend (sb.buffer.take sb.offset ++ bytes)
        (sb.buffer.drop (sb.offset + bytes.length))
      rw [hlen2] at key
      simp only [writeAt]
      exact key

/-- C5 witness: a concrete in-bounds write copies the bytes and returns the
count (offset 1, two bytes, capacity 4). -/
theorem C5_witness :
    (⟨[9, 9, 9, 9], 4, 1⟩ : StreamData).offset + [5, 6].length ≤
        (⟨[9, 9, 9, 9], 4, 1⟩ : StreamData).total ∧
    (bufferWriteFunc ⟨[9, 9, 9, 9], 4, 1⟩ [5, 6]).2 = [5, 6].length ∧
    (bufferWriteFunc ⟨[9, 9, 9, 9], 4, 1⟩ [5, 6]).1.offset = 1 + [5, 6].length :=
  ⟨by decide,
   ((C5_buffer_write_guard ⟨[9, 9, 9, 9], 4, 1⟩ [5, 6]).2 (by decide)).1,
   ((C5_buffer_write_guard ⟨[9, 9, 9, 9], 4, 1⟩ [5, 6]).2 (by decide)).2.1⟩

/-- C6: for every batch of N units with open-file limit L, `batchDownloadSync`
issues exactly the engine batch calls `batchGroups L units` (one per group, in
order): they partition the units in order, each group has at most L units, and
there are exactly the ceiling of N divided by L of them. -/
theorem C6_batch_grouping {α : Type} (L : Nat) (units : List α) (hL : 0 < L) :
    (batchGroups L units).flatten = units ∧
    (batchGroups L units).length = (units.length + L - 1) / L ∧
    ∀ g ∈ batchGroups L units, g.length ≤ L := by
  unfold batchGroups
  by_cases h0 : units.length = 0
  · have hnil : units = [] := List.length_eq_zero.mp h0
    subst hnil
    refine ⟨by simp, ?_, by simp⟩
    simp only [List.length_nil, if_pos rfl]
    exact (Nat.div_eq_of_lt (by omega)).symm
  · by_cases hbig : L ≤ units.length
    · rw [if_neg h0, if_pos hbig]
      refine ⟨grouploop_flatten L units 0 [], ?_, ?_⟩
      · rw [grouploop_length L hL units 0 [] rfl (by omega)]
        congr 1
        simp
      · exact grouploop_sizes L hL units 0 [] rfl (by omega)
    · rw [if_neg h0, if_neg hbig]
      refine ⟨by simp, ?_, ?_⟩
      · have h1 : 1 ≤ units.length := by omega
        have h2 : units.length < L := by omega
        have hdiv : (units.length + L - 1) / L = 1 :=
          Nat.div_eq_of_lt_le (by omega) (by omega)
        simp [hdiv]
      · intro g hg
        simp only [List.mem_singleton] at hg
        subst hg
        omega

/-- C6 witness: 7 units with limit 3 give ceiling(7/3) = 3 groups. -/
theorem C6_witness :
    0 < 3 ∧
    (batchGroups 3 [0, 1, 2, 3, 4, 5, 6]).flatten = [0, 1, 2, 3, 4, 5, 6] ∧
    (batchGroups 3 [0, 1, 2, 3, 4, 5, 6]).length =
      ([0, 1, 2, 3, 4, 5, 6].length + 3 - 1) / 3 :=
  ⟨by decide,
   (C6_batch_grouping 3 [0, 1, 2, 3, 4, 5, 6] (by decide)).1,
   (C6_batch_grouping 3 [0, 1, 2, 3, 4, 5, 6] (by decide)).2.1⟩

/-- C9: `prepareDownload` opens the temp file in append mode exactly when the
batch supports resuming, the unit requested it, and the temp file already
exists; append mode preserves the prior temp contents so the appended result
is the prior prefix plus the newly fetched bytes; truncating mode empties the
file; and the single-transfer path (which passes `resumeDownload = false`, as
`downloadToFP` does) never opens in append mode. -/
theorem C9_resume_append_mode (s r e : Bool) (fs fs2 : FS) (p : String)
    (prior bytes : List Byte) (h : Handlers) (ct : ExecThread)
    (sr canOpen : Bool) (errn : Int) (url sp cid : String)
    (hprior : fs.lookup p = some prior) :
    (fopenModeFor s r e = FileMode.ab ↔ (s = true ∧ r = true ∧ e = true)) ∧
    ((fs.fopen p FileMode.ab).appendFile p bytes).lookup p = some (prior ++ bytes) ∧
    (fs2.fopen p FileMode.wb).lookup p = some [] ∧
    (prepareDownload h ct sr url sp cid false canOpen errn fs2).mode ≠
      some FileMode.ab := by
  refine ⟨?_, ?_, FS.lookup_fopen_wb fs2 p, ?_⟩
  · cases s <;> cases r <;> cases e <;> simp [fopenModeFor]
  · have hx : fs.isFileExist p = true := by
      simp [FS.isFileExist, hprior]
    rw [FS.fopen_ab_of_exists fs p hx, FS.lookup_appendFile_self, hprior]
    rfl
  · cases hk : findLastSep sp with
    | none => simp [prepareDownload, hk]
    | some found =>
        by_cases hc : canOpen = true <;>
          simp [prepareDownload, hk, hc, fopenModeFor]

/-- C9 witness: with resume supported, requested, and an existing two-byte
temp file, the mode is append and writing three more bytes yields the prior
prefix plus the new bytes. -/
theorem C9_witness :
    (⟨[("f.temp", [1, 2])]⟩ : FS).lookup "f.temp" = some [1, 2] ∧
    (fopenModeFor true true true = FileMode.ab ↔
      (true = true ∧ true = true ∧ true = true)) ∧
    (((⟨[("f.temp", [1, 2])]⟩ : FS).fopen "f.temp" FileMode.ab).appendFile
        "f.temp" [3, 4, 5]).lookup "f.temp" = some ([1, 2] ++ [3, 4, 5]) :=
  ⟨by decide,
   (C9_resume_append_mode true true true ⟨[("f.temp", [1, 2])]⟩ emptyFS "f.temp"
      [1, 2] [3, 4, 5] allHandlers .cocos false true 0 "u" "/a/b" "c" (by decide)).1,
   (C9_resume_append_mode true true true ⟨[("f.temp", [1, 2])]⟩ emptyFS "f.temp"
      [1, 2] [3, 4, 5] allHandlers .cocos false true 0 "u" "/a/b" "c" (by decide)).2.1⟩

/-- C10: calling `downloadToBufferAsync` or `downloadToBufferSync` with a null
buffer pointer is a complete no-op: no worker thread is spawned, no transfer
runs, and no handler is ever invoked for that call. -/
theorem C10_null_buffer_noop (h : Handlers) (ct : ExecThread) (eng : EngineRun)
    (url cid : String) (size : Nat) :
    downloadToBufferAsync h eng url cid none size = none ∧
    downloadToBufferSync h ct eng url cid none size = none :=
  ⟨rfl, rfl⟩

/-- C3: after the engine's batch call returns, the completion walk reports a
NETWORK error (with that unit's correlation id) for exactly the trackers with
`downloaded < total` or `total == 0`, renames the temp file of exactly the
others, and `groupBatchDownload` closes every file handle it opened before it
returns (so before the next group starts). -/
theorem C3_group_walk_rename_or_error (h : Handlers) (ct : ExecThread)
    (sr : Bool) (canOpen : String → Bool) (errn : Int) (eng : List BatchAction)
    (units : List DownloadUnit) (fs fsw : FS) (pds : List ProgressData)
    (hE : h.hasError = true) :
    groupPostProcess h fsw pds =
      (applyRenames fsw pds,
       (pds.filter failGuard).map
         (fun d => (⟨.onError .NETWORK "Unable to download file" d.customId 0 0,
                     .cocos⟩ : Event)),
       (pds.filter (fun d => !failGuard d)).map (fun d => d.customId)) ∧
    (groupBatchDownload h ct sr canOpen errn eng units fs).openAfter = [] := by
  refine ⟨groupPostProcess_spec h hE pds fsw, ?_⟩
  unfold groupBatchDownload
  exact closeOpens _

/-- C3 witness: a two-tracker walk (one incomplete, one complete) produces one
NETWORK error for the failing id, renames the complete one, and the handles of
a concrete one-unit group are all closed. -/
theorem C3_witness :
    allHandlers.hasError = true ∧
    groupPostProcess allHandlers fsK [pdFail, pdOk] =
      (applyRenames fsK [pdFail, pdOk],
       ([pdFail, pdOk].filter failGuard).map
         (fun d => (⟨.onError .NETWORK "Unable to download file" d.customId 0 0,
                     .cocos⟩ : Event)),
       ([pdFail, pdOk].filter (fun d => !failGuard d)).map (fun d => d.customId)) ∧
    (groupBatchDownload allHandlers (.worker 0) false (fun _ => true) 0 []
        [unitA] emptyFS).openAfter = [] :=
  ⟨rfl,
   (C3_group_walk_rename_or_error allHandlers (.worker 0) false (fun _ => true)
      0 [] [unitA] emptyFS fsK [pdFail, pdOk] rfl).1,
   (C3_group_walk_rename_or_error allHandlers (.worker 0) false (fun _ => true)
      0 [] [unitA] emptyFS fsK [pdFail, pdOk] rfl).2⟩

theorem downloadToFP_flags (h : Handlers) (ct : ExecThread) (sr canOpen : Bool)
    (errn : Int) (eng : EngineRun) (url cid sp : String) (fs0 : FS) :
    ((downloadToFP h ct sr canOpen errn eng url cid sp fs0).didRename = true ↔
      eng.result = 0) ∧
    ((downloadToFP h ct sr canOpen errn eng url cid sp fs0).didRemoveTemp = true ↔
      eng.result ≠ 0) := by
  unfold downloadToFP
  by_cases hres : eng.result = 0 <;> simp [hres]

theorem downloadToFP_err_facts (h : Handlers) (ct : ExecThread) (sr : Bool)
    (errn : Int) (eng : EngineRun) (url cid sp : String) (fs0 : FS) (k : Nat)
    (hsp : findLastSep sp = some k) (hres : eng.result ≠ 0) :
    (downloadToFP h ct sr true errn eng url cid sp fs0).events =
      (runEngineSingle h eng.actions
          (fs0.fopen (sp ++ ".temp")
            (fopenModeFor sr false (fs0.isFileExist (sp ++ ".temp"))))
          (some (sp ++ ".temp"))
          { customId := cid, url := url, name := strDrop sp (k + 1),
            path := strTake sp (k + 1), downloaded := 0,
            totalToDownload := 0 }).2.2 ++
        notifyError h .CURL_EASY_ERROR
          ("Unable to download file: [curl error]" ++ eng.strError) cid
          eng.result 0 ∧
    (downloadToFP h ct sr true errn eng url cid sp fs0).fs.lookup
      (sp ++ ".temp") = none := by
  unfold downloadToFP
  rw [prepareDownload_some h ct sr url sp cid false errn fs0 k hsp, if_pos hres]
  constructor
  · simp
  · have hmeta := runEngineSingle_meta h eng.actions
        (fs0.fopen (sp ++ ".temp")
          (fopenModeFor sr false (fs0.isFileExist (sp ++ ".temp"))))
        (some (sp ++ ".temp"))
        { customId := cid, url := url, name := strDrop sp (k + 1),
          path := strTake sp (k + 1), downloaded := 0, totalToDownload := 0 }
    rw [hmeta.2.2.2, hmeta.2.2.1, strTake_append_strDrop]
    exact FS.lookup_removeFile_self _ _

theorem downloadToBuffer_err_events (h : Handlers) (ct : ExecThread)
    (eng : EngineRun) (url cid : String) (buf : List Byte) (size : Nat)
    (hres : eng.result ≠ 0) :
    (downloadToBuffer h ct eng url cid buf size).2.2 =
      (runEngineBuffer h eng.actions
          { buffer := buf, total := size, offset := 0 }
          { customId := cid, url := url, downloaded := 0,
            totalToDownload := 0 }).2.2 ++
        notifyError h .CURL_EASY_ERROR
          ("Unable to download file to buffer: [curl error]" ++ eng.strError)
          cid eng.result 0 := by
  unfold downloadToBuffer
  rw [if_pos hres]

theorem notifyError_countP_engine (h : Handlers) (hE : h.hasError = true)
    (msg cid : String) (res : Int) :
    (notifyError h .CURL_EASY_ERROR msg cid res 0).countP
      (fun e => Callback.isEngineErrorCb msg res e.cb) = 1 := by
  simp [notifyError, hE, List.countP_cons, Callback.isEngineErrorCb]

theorem notifyError_countP_success (h : Handlers) (code : ErrorCode)
    (msg cid : String) (a b : Int) :
    (notifyError h code msg cid a b).countP (fun e => e.cb.isSuccessCb) = 0 := by
  by_cases hE : h.hasError = true <;>
    simp [notifyError, hE, Callback.isSuccessCb, List.countP_cons]

theorem notifyError_countP_error (h : Handlers) (hE : h.hasError = true)
    (code : ErrorCode) (msg cid : String) (a b : Int) :
    (notifyError h code msg cid a b).countP (fun e => e.cb.isErrorCb) = 1 := by
  simp [notifyError, hE, Callback.isErrorCb, List.countP_cons]

/-- C7: for every single transfer (file or buffer destination) where the
engine's `performDownload` returns a non-zero result, `onError` fires exactly
once carrying the engine's error message and native result code, `onSuccess`
never fires for that transfer, and on the file-destination path the `.temp`
file is additionally deleted (and the rename to the final name never
happens). -/
theorem C7_engine_error_reporting (h : Handlers) (ct : ExecThread) (sr : Bool)
    (errn : Int) (eng : EngineRun) (url cid sp : String) (fs0 : FS) (k : Nat)
    (buf : List Byte) (size : Nat)
    (hE : h.hasError = true) (hres : eng.result ≠ 0)
    (hsp : findLastSep sp = some k) :
    ((downloadToFP h ct sr true errn eng url cid sp fs0).events.countP
        (fun e => Callback.isEngineErrorCb
          ("Unable to download file: [curl error]" ++ eng.strError)
          eng.result e.cb) = 1) ∧
    ((downloadToFP h ct sr true errn eng url cid sp fs0).events.countP
        (fun e => e.cb.isSuccessCb) = 0) ∧
    ((downloadToFP h ct sr true errn eng url cid sp fs0).events.countP
        (fun e => e.cb.isErrorCb) = 1) ∧
    (downloadToFP h ct sr true errn eng url cid sp fs0).fs.lookup
      (sp ++ ".temp") = none ∧
    (downloadToFP h ct sr true errn eng url cid sp fs0).didRemoveTemp = true ∧
    (downloadToFP h ct sr true errn eng url cid sp fs0).didRename = false ∧
    ((downloadToBuffer h ct eng url cid buf size).2.2.countP
        (fun e => Callback.isEngineErrorCb
          ("Unable to download file to buffer: [curl error]" ++ eng.strError)
          eng.result e.cb) = 1) ∧
    ((downloadToBuffer h ct eng url cid buf size).2.2.countP
        (fun e => e.cb.isSuccessCb) = 0) := by
  obtain ⟨hev, hfs⟩ := downloadToFP_err_facts h ct sr errn eng url cid sp fs0 k hsp hres
  have hflags := downloadToFP_flags h ct sr true errn eng url cid sp fs0
  have hengprog : ∀ e ∈ (runEngineSingle h eng.actions
        (fs0.fopen (sp ++ ".temp")
          (fopenModeFor sr false (fs0.isFileExist (sp ++ ".temp"))))
        (some (sp ++ ".temp"))
        { customId := cid, url := url, name := strDrop sp (k + 1),
          path := strTake sp (k + 1), downloaded := 0,
          totalToDownload := 0 }).2.2,
      e.cb.isProgressCb = true :=
    fun e he => (runEngineSingle_events h _ _ _ _ e he).2
  have hbufprog : ∀ e ∈ (runEngineBuffer h eng.actions
        { buffer := buf, total := size, offset := 0 }
        { customId := cid, url := url, downloaded := 0,
          totalToDownload := 0 }).2.2,
      e.cb.isProgressCb = true :=
    fun e he => (runEngineBuffer_events h _ _ _ e he).2
  have hbev := downloadToBuffer_err_events h ct eng url cid buf size hres
  refine ⟨?_, ?_, ?_, hfs, (hflags.2).mpr hres, ?_, ?_, ?_⟩
  · rw [hev, List.countP_append,
      countP_zero_of_all _ _
        (fun e he => (progressCb_excludes e.cb (hengprog e he)).2.2.1 _ _),
      notifyError_countP_engine h hE _ cid eng.result]
  · rw [hev, List.countP_append,
      countP_zero_of_all _ _
        (fun e he => (progressCb_excludes e.cb (hengprog e he)).2.1),
      notifyError_countP_success h _ _ cid eng.result 0]
  · rw [hev, List.countP_append,
      countP_zero_of_all _ _
        (fun e he => (progressCb_excludes e.cb (hengprog e he)).1),
      notifyError_countP_error h hE _ _ cid eng.result 0]
  · cases hdr : (downloadToFP h ct sr true errn eng url cid sp fs0).didRename
    · rfl
    · exact absurd (hflags.1.mp hdr) hres
  · rw [hbev, List.countP_append,
      countP_zero_of_all _ _
        (fun e he => (progressCb_excludes e.cb (hbufprog e he)).2.2.1 _ _),
      notifyError_countP_engine h hE _ cid eng.result]
  · rw [hbev, List.countP_append,
      countP_zero_of_all _ _
        (fun e he => (progressCb_excludes e.cb (hbufprog e he)).2.1),
      notifyError_countP_success h _ _ cid eng.result 0]

/-- C7 witness: a concrete failing engine (result 6) on a valid storage path:
exactly one engine error event and the temp file is gone. -/
theorem C7_witness :
    allHandlers.hasError = true ∧ failedEngine.result ≠ 0 ∧
    findLastSep "/d/f" = some 2 ∧
    ((downloadToFP allHandlers .cocos false true 0 failedEngine "u" "c" "/d/f"
        emptyFS).events.countP
      (fun e => Callback.isEngineErrorCb
        ("Unable to download file: [curl error]" ++ failedEngine.strError)
        failedEngine.result e.cb) = 1) ∧
    (downloadToFP allHandlers .cocos false true 0 failedEngine "u" "c" "/d/f"
        emptyFS).fs.lookup ("/d/f" ++ ".temp") = none :=
  ⟨rfl, by decide, by decide,
   (C7_engine_error_reporting allHandlers .cocos false 0 failedEngine "u" "c"
      "/d/f" emptyFS 2 [0, 0] 2 rfl (by decide) (by decide)).1,
   (C7_engine_error_reporting allHandlers .cocos false 0 failedEngine "u" "c"
      "/d/f" emptyFS 2 [0, 0] 2 rfl (by decide) (by decide)).2.2.2.1⟩

/-- C8: cleanup of temp files is asymmetric.  A failed single file transfer
removes the `.temp` file (the removal precedes the marshaled error delivery in
`downloadToFP`) and reports exactly one error; a failed batch member gets its
NETWORK error reported while the completion walk leaves the filesystem — and
hence its `.temp` file — untouched (handles are merely closed), and the walk
as a whole performs only renames, never deletions. -/
theorem C8_temp_cleanup_asymmetry (h : Handlers) (ct : ExecThread) (sr : Bool)
    (errn : Int) (eng : EngineRun) (url cid sp : String) (fs0 : FS) (k : Nat)
    (d : ProgressData) (fsB : FS) (pds : List ProgressData)
    (hE : h.hasError = true) (hres : eng.result ≠ 0)
    (hsp : findLastSep sp = some k) (hfail : failGuard d = true) :
    (downloadToFP h ct sr true errn eng url cid sp fs0).didRemoveTemp = true ∧
    (downloadToFP h ct sr true errn eng url cid sp fs0).fs.lookup
      (sp ++ ".temp") = none ∧
    groupPostProcess h fsB [d] =
      (fsB,
       [⟨Callback.onError ErrorCode.NETWORK "Unable to download file"
           d.customId 0 0, ExecThread.cocos⟩],
       []) ∧
    (groupPostProcess h fsB pds).1 = applyRenames fsB pds := by
  obtain ⟨hev, hfs⟩ := downloadToFP_err_facts h ct sr errn eng url cid sp fs0 k hsp hres
  have hflags := downloadToFP_flags h ct sr true errn eng url cid sp fs0
  refine ⟨(hflags.2).mpr hres, hfs, ?_, ?_⟩
  · simp [groupPostProcess, hfail, notifyError, hE]
  · rw [groupPostProcess_spec h hE pds fsB]

/-- C8 witness: a tracker with downloaded 1 of 2 in a one-element walk keeps
the filesystem unchanged while its NETWORK error is emitted; the failed
single transfer has removed its temp file. -/
theorem C8_witness :
    allHandlers.hasError = true ∧ failedEngine.result ≠ 0 ∧
    findLastSep "/d/f" = some 2 ∧ failGuard pdFail = true ∧
    groupPostProcess allHandlers fsK [pdFail] =
      (fsK,
       [⟨Callback.onError ErrorCode.NETWORK "Unable to download file"
           pdFail.customId 0 0, ExecThread.cocos⟩],
       []) ∧
    (downloadToFP allHandlers .cocos false true 0 failedEngine "u" "c" "/d/f"
        emptyFS).didRemoveTemp = true :=
  ⟨rfl, by decide, by decide, rfl,
   (C8_temp_cleanup_asymmetry allHandlers .cocos false 0 failedEngine "u" "c"
      "/d/f" emptyFS 2 pdFail fsK [] rfl (by decide) (by decide) rfl).2.2.1,
   (C8_temp_cleanup_asymmetry allHandlers .cocos false 0 failedEngine "u" "c"
      "/d/f" emptyFS 2 pdFail fsK [] rfl (by decide) (by decide) rfl).1⟩

/-- C1 counterexample: a worker-thread single transfer whose storage path has
no separator makes `prepareDownload` invoke `onError` directly on the worker
thread, so not every handler invocation of the run is on the owning thread —
refuting the claim that destination-preparation errors are marshaled. -/
theorem C1_counterexample_prepare_error_direct :
    ((downloadToFP allHandlers (.worker 0) false true 0 idleEngine "http://u"
        "id1" "nosep" emptyFS).events.all
      (fun e => decide (e.thread = ExecThread.cocos))) = false := rfl

/-- C1 (amended): for every transfer (single file, buffer, or batch) every
handler invocation runs on the owning (cocos) thread, EXCEPT errors raised
during destination preparation (invalid path, temp-file open failure), which
`prepareDownload` invokes directly on the calling thread — the worker thread
for asynchronous transfers. -/
theorem C1_callbacks_marshaled_except_prepare (h : Handlers) (ct : ExecThread)
    (sr canOpen : Bool) (errn : Int) (eng : EngineRun) (url cid sp : String)
    (fs0 : FS) (buf : List Byte) (size : Nat) (canOpenB : String → Bool)
    (engineFor : Nat → List BatchAction) (L : Nat)
    (units : List DownloadUnit) (batchId : String) :
    (∀ e ∈ (downloadToFP h ct sr canOpen errn eng url cid sp fs0).events,
      e.thread = ExecThread.cocos ∨
        (e.thread = ct ∧ e.cb.isPrepErrorCb = true)) ∧
    (∀ e ∈ (downloadToBuffer h ct eng url cid buf size).2.2,
      e.thread = ExecThread.cocos) ∧
    (∀ e ∈ (batchDownloadSync h ct sr canOpenB errn engineFor L units batchId
        fs0).2,
      e.thread = ExecThread.cocos ∨
        (e.thread = ct ∧ e.cb.isPrepErrorCb = true)) :=
  ⟨downloadToFP_events_split h ct sr canOpen errn eng url cid sp fs0,
   downloadToBuffer_events h ct eng url cid buf size,
   batchDownloadSync_events h ct sr canOpenB errn engineFor L units batchId fs0⟩

/-- C1 witness: the worker-thread preparation-error event of a concrete run
falls under the amended dichotomy. -/
theorem C1_witness :
    (⟨Callback.onError ErrorCode.INVALID_URL
        "Invalid url or filename not exist error: http://u" "id1" 0 0,
      ExecThread.worker 0⟩ : Event).thread = ExecThread.cocos ∨
    ((⟨Callback.onError ErrorCode.INVALID_URL
         "Invalid url or filename not exist error: http://u" "id1" 0 0,
       ExecThread.worker 0⟩ : Event).thread = ExecThread.worker 0 ∧
     (⟨Callback.onError ErrorCode.INVALID_URL
         "Invalid url or filename not exist error: http://u" "id1" 0 0,
       ExecThread.worker 0⟩ : Event).cb.isPrepErrorCb = true) :=
  (C1_callbacks_marshaled_except_prepare allHandlers (.worker 0) false true 0
      idleEngine "http://u" "id1" "nosep" emptyFS [] 0 (fun _ => true)
      (fun _ => []) 16 [] "").1 _ (by decide)

/-- C2 counterexample: an engine run returning 0 after reporting only 50 of
100 bytes (and writing 3 bytes) still gets its temp file renamed by the
single-transfer path, so a partially-downloaded file appears under its final
name with `downloaded < total` — refuting the bytesDownloaded == bytesTotal
and bytesTotal > 0 rename condition claimed for the single-transfer path. -/
theorem C2_counterexample_single_rename_without_completion :
    ((downloadToFP allHandlers .cocos false true 0 partialEngine
        "http://x/a.bin" "A" "/tmp/a.bin" emptyFS).didRename,
     (downloadToFP allHandlers .cocos false true 0 partialEngine
        "http://x/a.bin" "A" "/tmp/a.bin" emptyFS).pData.downloaded,
     (downloadToFP allHandlers .cocos false true 0 partialEngine
        "http://x/a.bin" "A" "/tmp/a.bin" emptyFS).pData.totalToDownload,
     (downloadToFP allHandlers .cocos false true 0 partialEngine
        "http://x/a.bin" "A" "/tmp/a.bin" emptyFS).fs.lookup "/tmp/a.bin") =
    (true, 50, 100, some [1, 2, 3]) := rfl

/-- C2 (amended): bytes are only ever written to the `.temp`-suffixed path
(engine writes touch no other file, and any handle `prepareDownload` opens is
the `.temp` path); the single-transfer path renames the temp file to its final
name if and only if the engine's result code is 0 — the byte-counter condition
is not checked there; the batch path renames a unit's temp file exactly when
its tracker fails the `downloaded < total or total == 0` test. -/
theorem C2_temp_write_and_rename_conditions (h : Handlers) (ct : ExecThread)
    (sr canOpen rd : Bool) (errn : Int) (eng : EngineRun) (url cid sp : String)
    (fs0 fs : FS) (pd : ProgressData) (acts : List EngineAction)
    (tempPath p : String) (pds : List ProgressData)
    (hp : p ≠ tempPath) :
    ((downloadToFP h ct sr canOpen errn eng url cid sp fs0).didRename = true ↔
      eng.result = 0) ∧
    ((runEngineSingle h acts fs (some tempPath) pd).1.lookup p = fs.lookup p) ∧
    ((prepareDownload h ct sr url sp cid rd canOpen errn fs0).fp = none ∨
     (prepareDownload h ct sr url sp cid rd canOpen errn fs0).fp =
        some (sp ++ ".temp")) ∧
    ((groupPostProcess h fs pds).2.2 =
      (pds.filter (fun d => !failGuard d)).map (fun d => d.customId)) := by
  refine ⟨(downloadToFP_flags h ct sr canOpen errn eng url cid sp fs0).1,
    runEngineSingle_fs_ne h acts fs tempPath pd p hp, ?_,
    groupPostProcess_renamed h pds fs⟩
  cases hk : findLastSep sp with
  | none => simp [prepareDownload, hk]
  | some found =>
      by_cases hc : canOpen = true <;> simp [prepareDownload, hk, hc]

/-- C2 witness: the rename-iff-zero-result fact and the untouched-other-file
fact at concrete inputs. -/
theorem C2_witness :
    ("/x" : String) ≠ "/t.temp" ∧
    ((downloadToFP allHandlers .cocos false true 0 partialEngine
        "http://x/a.bin" "A" "/tmp/a.bin" emptyFS).didRename = true ↔
      partialEngine.result = 0) ∧
    ((runEngineSingle allHandlers partialEngine.actions fsK (some "/t.temp")
        pdOk).1.lookup "/x" = fsK.lookup "/x") :=
  ⟨by decide,
   (C2_temp_write_and_rename_conditions allHandlers .cocos false true false 0
      partialEngine "http://x/a.bin" "A" "/tmp/a.bin" emptyFS fsK pdOk
      partialEngine.actions "/t.temp" "/x" [] (by decide)).1,
   (C2_temp_write_and_rename_conditions allHandlers .cocos false true false 0
      partialEngine "http://x/a.bin" "A" "/tmp/a.bin" emptyFS fsK pdOk
      partialEngine.actions "/t.temp" "/x" [] (by decide)).2.1⟩

/-- C4 counterexample: in a concrete one-unit batch whose transfer reaches
100%, the trace contains a success callback with the file's (non-empty) url —
per-file completion IS signaled through the success callback, refuting the
claim that it is signaled only through a progress notification. -/
theorem C4_counterexample_per_file_success_event :
    ((batchDownloadSync allHandlers (.worker 0) false (fun _ => true) 0
        (fun _ => [BatchAction.progress 0 4 4]) 16 [unitA] "B" emptyFS).2.countP
      (fun e => e.cb.isFileSuccessCb)) = 1 := rfl

/-- C4 (amended): after all groups are processed, `batchDownloadSync` emits
exactly one final success callback with empty url and path and the batch id,
marshaled onto the owning thread, appended after all group events; but
per-file completion within a batch is signaled through BOTH a progress
notification at 100% AND a success callback carrying the file's url and final
path (`reportProgressFinished` calls `reportDownloadFinished`). -/
theorem C4_batch_final_and_per_file_success (h : Handlers) (ct : ExecThread)
    (engineResume : Bool) (canOpen : String → Bool) (errn : Int)
    (engineFor : Nat → List BatchAction) (L : Nat)
    (units : List DownloadUnit) (batchId : String) (fs0 : FS)
    (pd : ProgressData) (t n : Nat)
    (hS : h.hasSuccess = true) (hP : h.hasProgress = true)
    (hd : pd.downloaded ≠ n) (hnt : n = t) :
    ((batchDownloadSync h ct engineResume canOpen errn engineFor L units
        batchId fs0).2 =
      (if units.length = 0 then [] else
        (runGroups h ct engineResume canOpen errn engineFor 0
          (batchGroups L units) fs0).2) ++
      [(⟨.onSuccess "" "" batchId, .cocos⟩ : Event)]) ∧
    ((batchDownloadProgressFunc h ct pd t n).2 =
      [⟨.onProgress t n pd.url pd.customId, .cocos⟩,
       ⟨.onSuccess pd.url (pd.path ++ pd.name) pd.customId, .cocos⟩]) := by
  constructor
  · by_cases h0 : units.length = 0 <;> simp [batchDownloadSync, hS, h0]
  · subst hnt
    unfold batchDownloadProgressFunc
    rw [marshalThread ct]
    by_cases h0 : pd.totalToDownload = 0 <;>
      simp [h0, hd, reportProgressFinished, reportDownloadFinished,
        reportProgressInProgress, hP, hS]

/-- C4 witness: a tracker at 3 bytes reaching 5 of 5 emits the progress
notification at 100% followed by the per-file success callback. -/
theorem C4_witness :
    allHandlers.hasSuccess = true ∧ allHandlers.hasProgress = true ∧
    pdOk.downloaded ≠ 5 ∧
    ((batchDownloadProgressFunc allHandlers (.worker 0) pdOk 5 5).2 =
      [⟨.onProgress 5 5 pdOk.url pdOk.customId, .cocos⟩,
       ⟨.onSuccess pdOk.url (pdOk.path ++ pdOk.name) pdOk.customId, .cocos⟩]) :=
  ⟨rfl, rfl, by decide,
   (C4_batch_final_and_per_file_success allHandlers (.worker 0) false
      (fun _ => true) 0 (fun _ => []) 16 [unitA] "B" emptyFS pdOk 5 5 rfl rfl
      (by decide) rfl).2⟩

end CCDownloader
